import Mathlib

/-!
Shallow embedding of `src/or/conscache.c` (the Tor consensus-document cache:
reference-counted cache entries, label-based querying, lazy memory mapping,
and rescan/reconstruction of the in-memory index from persisted state).

The cache core itself is translated function by function from the C source.
The collaborators that the source uses but that are not part of this source
tree (the storage-directory service of `storagedir.c`, the `smartlist_t`
container, the `config_line_t` helpers, and the `BUG` defect check) are
modelled from the specification, as marked in their doc comments.

Modelling conventions:
 - byte buffers are `List Nat`; C strings are `String`;
 - the C `int` refcount is `Int`, so that the "would drop below zero" defect
   is expressible exactly as in the source;
 - a `tor_mmap_t *` field is a `Bool` flag (`map = true` iff the pointer is
   non-null) together with the `body`/`bodylen` fields the mapping fills in;
 - the `in_cache` back-pointer is a `Bool` flag (non-null or cleared); the
   directory binding it would be dereferenced through is passed explicitly
   to the operations that use it, and is irrelevant when the flag is false;
 - mutation is explicit state passing: an operation that mutates an entry
   returns the new entry value.
-/

namespace Conscache

/-- One `config_line_t` node: an ordered key/value pair of strings. -/
abbrev ConfigLine := String × String

/-- One persisted labelled blob inside the storage directory. -/
structure StoredFile where
  fname : String
  labels : List ConfigLine
  body : List Nat
deriving DecidableEq

/-- Modelled from the spec: the storage-directory service (`storagedir.c` is
not part of this source tree). It persists labelled byte blobs under fresh
unique filenames, lists the filenames, maps a named file back into memory
with its labels and body extracted, and enforces a maximum entry count. -/
structure storage_dir_t where
  files : List StoredFile
  max_entries : Nat
  next_idx : Nat
deriving DecidableEq

/-- Modelled from the spec: the fresh filename the storage directory assigns
to the next persisted blob; the service guarantees filename uniqueness. -/
def storage_dir_fresh_fname (dir : storage_dir_t) : String :=
  "doc-" ++ toString dir.next_idx

/-- Modelled from the spec: `persist_labelled` / `storage_dir_save_labelled_to_file`.
Persists `data` with `labels` under a fresh filename and returns the updated
directory together with the assigned filename, or fails (for example when the
directory already holds `max_entries` files). -/
def storage_dir_save_labelled_to_file (dir : storage_dir_t)
    (labels : List ConfigLine) (data : List Nat) :
    Option (storage_dir_t × String) :=
  if dir.max_entries ≤ dir.files.length then
    none
  else
    let fname := storage_dir_fresh_fname dir
    some ({ files := dir.files ++ [⟨fname, labels, data⟩],
            max_entries := dir.max_entries,
            next_idx := dir.next_idx + 1 }, fname)

/-- Modelled from the spec: `list_filenames`, every persisted filename in
insertion order. -/
def storage_dir_list (dir : storage_dir_t) : List String :=
  dir.files.map StoredFile.fname

/-- Modelled from the spec: `map_labelled` / `storage_dir_map_labelled`.
Maps the named file, extracting its labels and body; fails when no such
file can be read. -/
def storage_dir_map_labelled (dir : storage_dir_t) (fname : String) :
    Option (List ConfigLine × List Nat) :=
  match dir.files.find? (fun f => f.fname == fname) with
  | some f => some (f.labels, f.body)
  | none => none

/-- Modelled from the spec: `config_line_find` returns the first line whose
key matches exactly (string equality); label order is significant. -/
def config_line_find (lines : List ConfigLine) (key : String) :
    Option ConfigLine :=
  lines.find? (fun l => l.fst == key)

/-- Modelled from the spec: `config_lines_dup` makes a private copy of a
label sequence (copy semantics; a copy is value-equal in this embedding). -/
def config_lines_dup (lines : List ConfigLine) : List ConfigLine :=
  lines.map (fun l => (l.fst, l.snd))

/-- `struct consensus_cache_entry_t`: a reference-counted handle to one
persisted labelled document. -/
structure consensus_cache_entry_t where
  refcnt : Int
  can_remove : Bool
  fname : String
  labels : List ConfigLine
  in_cache : Bool
  map : Bool
  bodylen : Nat
  body : List Nat
deriving DecidableEq

/-- `struct consensus_cache_t`: the directory binding and the insertion
ordered collection of entries. -/
structure consensus_cache_t where
  dir : storage_dir_t
  entries : List consensus_cache_entry_t
deriving DecidableEq

/-- `consensus_cache_rescan`: rebuild `entries` from the persisted files.
Each filename the directory lists is mapped for discovery; files that fail
to map are skipped; a fresh entry (refcount 1, unmapped) is created for
each readable file, and the discovery mapping is released at once. -/
def consensus_cache_rescan (cache : consensus_cache_t) : consensus_cache_t :=
  { cache with entries :=
      (storage_dir_list cache.dir).filterMap (fun fname =>
        match storage_dir_map_labelled cache.dir fname with
        | none => none
        | some (labels, _body) =>
          some { refcnt := 1, can_remove := false, fname := fname,
                 labels := labels, in_cache := true, map := false,
                 bodylen := 0, body := [] }) }

/-- Result of `consensus_cache_open`. The source stores the result of
`storage_dir_new` into `cache->dir` without any check and immediately calls
`consensus_cache_rescan`, which dereferences that handle via
`storage_dir_list`; when the directory binding failed (a null handle) this
is undefined behavior, modelled as `nullDirCrash`. -/
inductive OpenResult where
  | ok (cache : consensus_cache_t)
  | nullDirCrash
deriving DecidableEq

/-- `consensus_cache_open`: bind the storage directory (the caller passes
the result of `storage_dir_new`, `none` when the binding failed) and rescan
into a fresh cache. -/
def consensus_cache_open (bind_result : Option storage_dir_t) : OpenResult :=
  match bind_result with
  | some dir => OpenResult.ok (consensus_cache_rescan { dir := dir, entries := [] })
  | none => OpenResult.nullDirCrash

/-- Result of `consensus_cache_entry_decref`, separating the observable
outcomes of the C function: a null argument is ignored; a non-positive
refcount trips the loud `BUG` report (modelled from the spec: `BUG` reports
the defect and the function returns with the entry unmodified); otherwise
the entry either stays live with the decremented count or, exactly at zero,
is destroyed — recording whether a mapping was released and which label
storage was freed. -/
inductive DecrefResult where
  | noEntry
  | bugReported (ent : consensus_cache_entry_t)
  | live (ent : consensus_cache_entry_t)
  | freed (mappingReleased : Bool) (labelsFreed : List ConfigLine)
deriving DecidableEq

/-- `consensus_cache_entry_decref`. -/
def consensus_cache_entry_decref (ent : Option consensus_cache_entry_t) :
    DecrefResult :=
  match ent with
  | none => DecrefResult.noEntry
  | some e =>
    if e.refcnt ≤ 0 then
      DecrefResult.bugReported e
    else
      let e2 := { e with refcnt := e.refcnt - 1 }
      if 0 < e2.refcnt then
        DecrefResult.live e2
      else
        DecrefResult.freed e.map e.labels

/-- `consensus_cache_entry_incref`. -/
def consensus_cache_entry_incref (ent : consensus_cache_entry_t) :
    consensus_cache_entry_t :=
  { ent with refcnt := ent.refcnt + 1 }

/-- `consensus_cache_entry_mark_for_removal`. -/
def consensus_cache_entry_mark_for_removal (ent : consensus_cache_entry_t) :
    consensus_cache_entry_t :=
  { ent with can_remove := true }

/-- The loop body of `consensus_cache_free` for one listed entry: release
the cache refcount unit, then clear the back-reference of the entry if it
survived (when the decrement destroyed the entry, the source writes the
cleared back-reference into released storage; the entry is simply gone,
modelled as `none`). -/
def consensus_cache_free_entry (ent : consensus_cache_entry_t) :
    Option consensus_cache_entry_t :=
  match consensus_cache_entry_decref (some ent) with
  | DecrefResult.live e2 => some { e2 with in_cache := false }
  | _ => none

/-- `consensus_cache_free`: the surviving (externally held) entries after
the cache releases its refcount unit on each listed entry and clears the
back-references; the entry list and the directory binding are released. -/
def consensus_cache_free (cache : consensus_cache_t) :
    List consensus_cache_entry_t :=
  cache.entries.filterMap consensus_cache_free_entry

/-- `consensus_cache_add`: persist the document; on failure return no entry
with the cache untouched; on success build the fresh entry (refcount 1, a
private copy of the labels, the assigned filename, unmapped) and append it
to `entries`. -/
def consensus_cache_add (cache : consensus_cache_t)
    (labels : List ConfigLine) (data : List Nat) :
    Option consensus_cache_entry_t × consensus_cache_t :=
  match storage_dir_save_labelled_to_file cache.dir labels data with
  | none => (none, cache)
  | some (dir2, fname) =>
    let ent : consensus_cache_entry_t :=
      { refcnt := 1, can_remove := false, fname := fname,
        labels := config_lines_dup labels, in_cache := true,
        map := false, bodylen := 0, body := [] }
    (some ent, { dir := dir2, entries := cache.entries ++ [ent] })

/-- `consensus_cache_entry_get_value`: the value of the first label with a
matching key, or absent. -/
def consensus_cache_entry_get_value (ent : consensus_cache_entry_t)
    (key : String) : Option String :=
  match config_line_find ent.labels key with
  | some line => some line.snd
  | none => none

/-- `consensus_cache_entry_get_labels`. -/
def consensus_cache_entry_get_labels (ent : consensus_cache_entry_t) :
    List ConfigLine :=
  ent.labels

/-- `consensus_cache_filter_list`: remove in place every entry whose first
label with the given key is absent or carries a different value. Modelled
from the spec where the `smartlist_t` deletion helper is concerned: the
surviving entries keep their original relative order. (The source checks
`BUG(lst == NULL)` first; a Lean list is never null, so that branch has no
counterpart here.) -/
def consensus_cache_filter_list (lst : List consensus_cache_entry_t)
    (key value : String) : List consensus_cache_entry_t :=
  match lst with
  | [] => []
  | ent :: rest =>
    match consensus_cache_entry_get_value ent key with
    | none => consensus_cache_filter_list rest key value
    | some found_val =>
      if value == found_val then
        ent :: consensus_cache_filter_list rest key value
      else
        consensus_cache_filter_list rest key value

/-- Modelled from the spec: `smartlist_add_all` appends the second list to
the first, preserving both orders. -/
def smartlist_add_all (sl1 sl2 : List consensus_cache_entry_t) :
    List consensus_cache_entry_t :=
  sl1 ++ sl2

/-- `consensus_cache_find_all`: copy the entry index into a scratch list,
filter it by the label predicate, and append the result to `out`. -/
def consensus_cache_find_all (out : List consensus_cache_entry_t)
    (cache : consensus_cache_t) (key value : String) :
    List consensus_cache_entry_t :=
  let tmp := smartlist_add_all [] cache.entries
  let tmp2 := consensus_cache_filter_list tmp key value
  smartlist_add_all out tmp2

/-- `consensus_cache_find_first`: run `find_all` into a scratch list and
return its first element, or no match when it is empty. -/
def consensus_cache_find_first (cache : consensus_cache_t)
    (key value : String) : Option consensus_cache_entry_t :=
  let tmp := consensus_cache_find_all [] cache key value
  match tmp with
  | [] => none
  | e :: _ => some e

/-- `consensus_cache_entry_map`: establish the mapping unless one is
already present; on success fill in `body` and `bodylen`, and release the
labels extracted as a side product; on failure leave the entry unmapped.
`dir` is the directory binding of the owning cache. -/
def consensus_cache_entry_map (dir : storage_dir_t)
    (ent : consensus_cache_entry_t) : consensus_cache_entry_t :=
  if ent.map then
    ent
  else
    match storage_dir_map_labelled dir ent.fname with
    | none => ent
    | some (_labels, body) =>
      { ent with map := true, body := body, bodylen := body.length }

/-- `consensus_cache_entry_get_body`: return the (body, length) pair,
lazily establishing the mapping through the owning cache when none is
present yet; fail when the entry has no owning cache or the map operation
fails. `dir` is the directory binding of `ent.in_cache` when that
back-reference is present, and is not consulted otherwise. -/
def consensus_cache_entry_get_body (dir : storage_dir_t)
    (ent : consensus_cache_entry_t) :
    Option (List Nat × Nat) × consensus_cache_entry_t :=
  if ent.map then
    (some (ent.body, ent.bodylen), ent)
  else if ent.in_cache then
    let ent2 := consensus_cache_entry_map dir ent
    if ent2.map then
      (some (ent2.body, ent2.bodylen), ent2)
    else
      (none, ent2)
  else
    (none, ent)

/-- The label predicate of the query operations: the first label of the
entry with the given key exists and carries exactly the given value. -/
def entry_matches (key value : String) (e : consensus_cache_entry_t) : Bool :=
  consensus_cache_entry_get_value e key == some value

/-! ### Helper lemmas -/

/-- The in-place filtering loop keeps exactly the matching entries, in their
original relative order. -/
theorem filter_list_eq_filter (lst : List consensus_cache_entry_t)
    (key value : String) :
    consensus_cache_filter_list lst key value
      = lst.filter (entry_matches key value) := by
  induction lst with
  | nil => rfl
  | cons ent rest ih =>
    cases h : consensus_cache_entry_get_value ent key with
    | none =>
      have hm : entry_matches key value ent = false := by
        simp [entry_matches, h]
      simp [consensus_cache_filter_list, h, List.filter_cons, hm, ih]
    | some found_val =>
      by_cases hv : value = found_val
      · subst hv
        have hm : entry_matches key value ent = true := by
          simp [entry_matches, h]
        simp [consensus_cache_filter_list, h, List.filter_cons, hm, ih]
      · have hb : (value == found_val) = false := by
          simp [hv]
        have hm : entry_matches key value ent = false := by
          simp only [entry_matches, h]
          simp [Ne.symm hv]
        simp [consensus_cache_filter_list, h, hb, List.filter_cons, hm, ih]

/-- `find_all` appends the matching entries, in index order, to `out`. -/
theorem find_all_eq (out : List consensus_cache_entry_t)
    (cache : consensus_cache_t) (key value : String) :
    consensus_cache_find_all out cache key value
      = out ++ cache.entries.filter (entry_matches key value) := by
  simp [consensus_cache_find_all, smartlist_add_all, filter_list_eq_filter]

/-- Filtering a duplicate-free list by membership in one of its sublists
recovers the sublist. -/
theorem filter_mem_of_sublist {α : Type _} [DecidableEq α] {l1 l2 : List α}
    (hsub : l1.Sublist l2) (hnd : l2.Nodup) :
    l2.filter (fun e => decide (e ∈ l1)) = l1 := by
  induction hsub with
  | slnil => rfl
  | cons a hs ih =>
    rename_i t1 t2
    have ha : a ∉ t2 := (List.nodup_cons.mp hnd).1
    have ha1 : a ∉ t1 := fun hmem => ha (hs.subset hmem)
    have hd : (decide (a ∈ t1)) = false := by simp [ha1]
    simp only [List.filter_cons, hd, Bool.false_eq_true, if_false]
    exact ih (List.nodup_cons.mp hnd).2
  | cons₂ a hs ih =>
    rename_i t1 t2
    have ha : a ∉ t2 := (List.nodup_cons.mp hnd).1
    have hd : (decide (a ∈ a :: t1)) = true := by simp
    simp only [List.filter_cons, hd, if_true]
    have hcong : t2.filter (fun e => decide (e ∈ a :: t1))
        = t2.filter (fun e => decide (e ∈ t1)) := by
      refine List.filter_congr (fun x hx => ?_)
      have hxa : x ≠ a := fun hexa => ha (hexa ▸ hx)
      simp [List.mem_cons, hxa]
    rw [hcong, ih (List.nodup_cons.mp hnd).2]

/-! ### Claim theorems -/

/-- Concrete inputs for the C3 counterexample: an entry whose earlier label
with the key `flavor` carries a different value than a later label with the
same key. -/
def first_match_entry : consensus_cache_entry_t :=
  { refcnt := 1, can_remove := false, fname := "doc-0",
    labels := [("flavor", "ns"), ("flavor", "microdesc")],
    in_cache := true, map := false, bodylen := 0, body := [] }

/-- A cache holding exactly `first_match_entry`. -/
def first_match_cache : consensus_cache_t :=
  { dir := { files := [], max_entries := 8, next_idx := 0 },
    entries := [first_match_entry] }

/-- C3 counterexample: an entry whose label sequence contains the label
`(flavor, microdesc)` is nevertheless NOT returned by
`find_all(flavor, microdesc)`, because an earlier label with the same key
carries a different value and the lookup is first-match-wins. -/
theorem consensus_cache_find_all_counterexample :
    ("flavor", "microdesc") ∈ first_match_entry.labels
    ∧ first_match_entry ∈ first_match_cache.entries
    ∧ consensus_cache_find_all [] first_match_cache "flavor" "microdesc" = [] := by
  decide

/-- C3 (amended): `find_all` returns, preserving index order, exactly those
entries whose FIRST label with the given key carries exactly the given
value (the `get_value` predicate); an entry whose first label with that key
carries a different value is excluded even when a later label with the same
key matches. -/
theorem consensus_cache_find_all_spec (cache : consensus_cache_t)
    (key value : String) :
    consensus_cache_find_all [] cache key value
      = cache.entries.filter (entry_matches key value)
    ∧ ∀ e, e ∈ consensus_cache_find_all [] cache key value ↔
        e ∈ cache.entries ∧ consensus_cache_entry_get_value e key = some value := by
  have h := find_all_eq [] cache key value
  rw [List.nil_append] at h
  refine ⟨h, fun e => ?_⟩
  rw [h, List.mem_filter]
  simp [entry_matches]

/-- C4: `find_first` returns the entry with the lowest index among those
whose first label with the given key carries exactly the given value; it
equals the head of the `find_all` result, and is "no match" exactly when
no entry satisfies the predicate. -/
theorem consensus_cache_find_first_spec (cache : consensus_cache_t)
    (key value : String) :
    consensus_cache_find_first cache key value
      = cache.entries.find? (entry_matches key value)
    ∧ consensus_cache_find_first cache key value
      = (consensus_cache_find_all [] cache key value).head?
    ∧ (consensus_cache_find_first cache key value = none ↔
        ∀ e ∈ cache.entries,
          ¬ consensus_cache_entry_get_value e key = some value) := by
  have h1 : consensus_cache_find_first cache key value
      = (consensus_cache_find_all [] cache key value).head? := by
    unfold consensus_cache_find_first
    cases consensus_cache_find_all [] cache key value <;> rfl
  have h2 : consensus_cache_find_first cache key value
      = cache.entries.find? (entry_matches key value) := by
    rw [h1, find_all_eq, List.nil_append, List.filter_head?]
  refine ⟨h2, h1, ?_⟩
  rw [h2, List.find?_eq_none]
  constructor
  · intro h e he hv
    have := h e he
    simp [entry_matches, hv] at this
  · intro h e he
    have := h e he
    simp [entry_matches, this]

/-- Concrete inputs for the C5 witness. -/
def filter_sample_cache : consensus_cache_t :=
  { dir := { files := [], max_entries := 8, next_idx := 0 },
    entries :=
      [{ refcnt := 1, can_remove := false, fname := "doc-0",
         labels := [("flavor", "ns")], in_cache := true, map := false,
         bodylen := 0, body := [] },
       { refcnt := 1, can_remove := false, fname := "doc-1",
         labels := [("flavor", "microdesc")], in_cache := true, map := false,
         bodylen := 0, body := [] }] }

/-- An entry matching `(flavor, ns)` that no cache index lists, for the C5
counterexample. -/
def filter_outside_entry : consensus_cache_entry_t :=
  { refcnt := 1, can_remove := false, fname := "doc-9",
    labels := [("flavor", "ns")], in_cache := false, map := false,
    bodylen := 0, body := [] }

/-- A cache whose index lists no entry at all, for the C5 counterexample. -/
def filter_empty_cache : consensus_cache_t :=
  { dir := { files := [], max_entries := 8, next_idx := 0 }, entries := [] }

/-- C5 counterexample: `filter_list` consults only the labels of the listed
entries, never cache membership, so an externally-held list holding a
matching entry that the cache index does not list keeps that entry — while
the list rebuilt from the `find_all` matches restricted to the original
list members is empty. The claimed equivalence fails for this
externally-held list. -/
theorem consensus_cache_filter_list_counterexample :
    consensus_cache_filter_list [filter_outside_entry] "flavor" "ns"
      = [filter_outside_entry]
    ∧ (consensus_cache_find_all [] filter_empty_cache "flavor" "ns").filter
        (fun e => decide (e ∈ [filter_outside_entry])) = [] := by
  decide

/-- C5 (amended): for every externally-held list, `filter_list` removes in
place exactly the entries that do not match the label predicate, preserving
the original relative order of the survivors; the rebuild equivalence with
`find_all` restricted to the original list members holds once the held list
is a duplicate-free selection (sublist) of the cache index — entries
outside the index, duplicates, or an order differing from the index break
it. -/
theorem consensus_cache_filter_list_spec_amended (cache : consensus_cache_t)
    (lst : List consensus_cache_entry_t) (key value : String) :
    consensus_cache_filter_list lst key value
      = lst.filter (entry_matches key value)
    ∧ (lst.Sublist cache.entries → cache.entries.Nodup →
        consensus_cache_filter_list lst key value
          = (consensus_cache_find_all [] cache key value).filter
              (fun e => decide (e ∈ lst))) := by
  refine ⟨filter_list_eq_filter lst key value, fun hsub hnd => ?_⟩
  rw [filter_list_eq_filter, find_all_eq, List.nil_append, List.filter_filter]
  have hswap : cache.entries.filter
        (fun e => decide (e ∈ lst) && entry_matches key value e)
      = cache.entries.filter
        (fun e => entry_matches key value e && decide (e ∈ lst)) := by
    refine List.filter_congr (fun x _ => ?_)
    exact Bool.and_comm _ _
  rw [hswap, ← List.filter_filter, filter_mem_of_sublist hsub hnd]

/-- Witness for C5 at a concrete cache, with the held list equal to the
full index. -/
theorem consensus_cache_filter_list_spec_amended_witness :
    filter_sample_cache.entries.Sublist filter_sample_cache.entries
    ∧ filter_sample_cache.entries.Nodup
    ∧ (consensus_cache_filter_list filter_sample_cache.entries "flavor" "ns"
        = filter_sample_cache.entries.filter (entry_matches "flavor" "ns")
      ∧ consensus_cache_filter_list filter_sample_cache.entries "flavor" "ns"
        = (consensus_cache_find_all [] filter_sample_cache "flavor" "ns").filter
            (fun e => decide (e ∈ filter_sample_cache.entries))) :=
  ⟨List.Sublist.refl _, by decide,
    (consensus_cache_filter_list_spec_amended filter_sample_cache
        filter_sample_cache.entries "flavor" "ns").1,
    (consensus_cache_filter_list_spec_amended filter_sample_cache
        filter_sample_cache.entries "flavor" "ns").2
      (List.Sublist.refl _) (by decide)⟩

/-- C10: `find_all` appends its matches to `out` without clearing it: the
result is the previous contents, preserved in place at the front, followed
by the matching entries in index order. -/
theorem consensus_cache_find_all_appends (out : List consensus_cache_entry_t)
    (cache : consensus_cache_t) (key value : String) :
    consensus_cache_find_all out cache key value
      = out ++ cache.entries.filter (entry_matches key value)
    ∧ (consensus_cache_find_all out cache key value).take out.length = out := by
  refine ⟨find_all_eq out cache key value, ?_⟩
  rw [find_all_eq, List.take_left]

/-- An entry with an established mapping: `get_body` returns the stored
pair and leaves the entry untouched, whatever directory binding is at hand. -/
theorem get_body_of_mapped (dir : storage_dir_t)
    (ent : consensus_cache_entry_t) (h : ent.map = true) :
    consensus_cache_entry_get_body dir ent
      = (some (ent.body, ent.bodylen), ent) := by
  simp [consensus_cache_entry_get_body, h]

/-- An entry with an established mapping is left untouched by
`consensus_cache_entry_map`: the mapping is never re-created or replaced. -/
theorem entry_map_of_mapped (dir : storage_dir_t)
    (ent : consensus_cache_entry_t) (h : ent.map = true) :
    consensus_cache_entry_map dir ent = ent := by
  simp [consensus_cache_entry_map, h]

/-- A successful `get_body` leaves the entry mapped, storing exactly the
returned pair. -/
theorem get_body_success_state (dir : storage_dir_t)
    (ent : consensus_cache_entry_t) (b : List Nat) (n : Nat)
    (h : (consensus_cache_entry_get_body dir ent).1 = some (b, n)) :
    ((consensus_cache_entry_get_body dir ent).2).map = true
    ∧ ((consensus_cache_entry_get_body dir ent).2).body = b
    ∧ ((consensus_cache_entry_get_body dir ent).2).bodylen = n := by
  by_cases hm : ent.map
  · rw [get_body_of_mapped dir ent hm] at h ⊢
    simp at h
    exact ⟨hm, h.1, h.2⟩
  · by_cases hc : ent.in_cache
    · by_cases h2 : (consensus_cache_entry_map dir ent).map
      · have hg : consensus_cache_entry_get_body dir ent
            = (some ((consensus_cache_entry_map dir ent).body,
                (consensus_cache_entry_map dir ent).bodylen),
              consensus_cache_entry_map dir ent) := by
          simp [consensus_cache_entry_get_body, hm, hc, h2]
        rw [hg] at h ⊢
        simp at h
        exact ⟨h2, h.1, h.2⟩
      · simp [consensus_cache_entry_get_body, hm, hc, h2] at h
    · simp [consensus_cache_entry_get_body, hm, hc] at h

/-- C1: `decref` on an already-non-positive refcount trips the loud defect
report and leaves the entry exactly as it was (never silently clamped, no
underflow); on a positive refcount it decrements by exactly one, keeping
the entry live while the count stays positive and, exactly when the count
reaches zero, destroying the entry — releasing the mapping exactly when one
was present and freeing the label storage. -/
theorem consensus_cache_entry_decref_spec (ent : consensus_cache_entry_t) :
    (ent.refcnt ≤ 0 →
      consensus_cache_entry_decref (some ent) = DecrefResult.bugReported ent)
    ∧ (0 < ent.refcnt →
      consensus_cache_entry_decref (some ent) =
        if 1 < ent.refcnt then
          DecrefResult.live { ent with refcnt := ent.refcnt - 1 }
        else
          DecrefResult.freed ent.map ent.labels)
    ∧ (∀ e2, consensus_cache_entry_decref (some ent) = DecrefResult.live e2 →
        e2.refcnt = ent.refcnt - 1 ∧ 0 < e2.refcnt) := by
  refine ⟨?_, ?_, ?_⟩
  · intro h
    simp [consensus_cache_entry_decref, h]
  · intro h
    have h0 : ¬ ent.refcnt ≤ 0 := by omega
    by_cases h1 : 1 < ent.refcnt
    · have hp : (0:Int) < ent.refcnt - 1 := by omega
      simp [consensus_cache_entry_decref, h0, h1, hp]
    · have hp : ¬ (0:Int) < ent.refcnt - 1 := by omega
      simp [consensus_cache_entry_decref, h0, h1, hp]
  · intro e2 he
    by_cases h0 : ent.refcnt ≤ 0
    · simp [consensus_cache_entry_decref, h0] at he
    · by_cases hp : (0:Int) < ent.refcnt - 1
      · simp only [consensus_cache_entry_decref, h0, if_false, hp, if_true] at he
        cases he
        exact ⟨rfl, hp⟩
      · simp [consensus_cache_entry_decref, h0, hp] at he

/-- A sample entry with refcount zero, for the decref witness. -/
def decref_sample_zero : consensus_cache_entry_t :=
  { refcnt := 0, can_remove := false, fname := "doc-0",
    labels := [("type", "consensus")], in_cache := true, map := false,
    bodylen := 0, body := [] }

/-- A sample mapped entry with refcount one, for the decref witness. -/
def decref_sample_one : consensus_cache_entry_t :=
  { refcnt := 1, can_remove := false, fname := "doc-1",
    labels := [("type", "consensus")], in_cache := true, map := true,
    bodylen := 2, body := [3, 4] }

/-- Witness for C1: at refcount zero the defect is reported and the entry
is untouched; at refcount one the decrement destroys the entry, releasing
its (present) mapping and its labels. -/
theorem consensus_cache_entry_decref_spec_witness :
    (decref_sample_zero.refcnt ≤ 0
      ∧ consensus_cache_entry_decref (some decref_sample_zero)
          = DecrefResult.bugReported decref_sample_zero)
    ∧ (0 < decref_sample_one.refcnt
      ∧ consensus_cache_entry_decref (some decref_sample_one)
          = DecrefResult.freed true [("type", "consensus")]) := by
  refine ⟨⟨by decide, (consensus_cache_entry_decref_spec decref_sample_zero).1
      (by decide)⟩, ⟨by decide, ?_⟩⟩
  have h := (consensus_cache_entry_decref_spec decref_sample_one).2.1 (by decide)
  rw [h]
  decide

/-- C2: after the first successful `get_body`, every subsequent `get_body`
on the resulting entry — through any directory binding, so no re-mapping is
consulted — returns the same (body, length) pair and leaves the entry
unchanged; `get_body` succeeds exactly when the entry ends up with the
mapping present; and an established mapping is never re-created or
replaced by the mapping operation. -/
theorem consensus_cache_entry_get_body_stable (dir : storage_dir_t)
    (ent : consensus_cache_entry_t) :
    (∀ b n, (consensus_cache_entry_get_body dir ent).1 = some (b, n) →
      ∀ dir2, consensus_cache_entry_get_body dir2
            ((consensus_cache_entry_get_body dir ent).2)
          = (some (b, n), (consensus_cache_entry_get_body dir ent).2))
    ∧ ((consensus_cache_entry_get_body dir ent).1.isSome = true ↔
        ((consensus_cache_entry_get_body dir ent).2).map = true)
    ∧ (ent.map = true → ∀ dir2, consensus_cache_entry_map dir2 ent = ent) := by
  refine ⟨?_, ?_, fun h dir2 => entry_map_of_mapped dir2 ent h⟩
  · intro b n h dir2
    obtain ⟨hmap, hbody, hlen⟩ := get_body_success_state dir ent b n h
    rw [get_body_of_mapped dir2 _ hmap, hbody, hlen]
  · constructor
    · intro h
      obtain ⟨p, hp⟩ := Option.isSome_iff_exists.mp h
      exact (get_body_success_state dir ent p.1 p.2 hp).1
    · intro h
      by_cases hm : ent.map
      · rw [get_body_of_mapped dir ent hm]
        rfl
      · by_cases hc : ent.in_cache
        · by_cases h2 : (consensus_cache_entry_map dir ent).map
          · simp [consensus_cache_entry_get_body, hm, hc, h2]
          · simp [consensus_cache_entry_get_body, hm, hc, h2] at h
        · simp [consensus_cache_entry_get_body, hm, hc] at h

/-- A sample directory holding one file, for the C2 witness. -/
def body_sample_dir : storage_dir_t :=
  { files := [⟨"doc-0", [("type", "consensus")], [7, 8]⟩],
    max_entries := 8, next_idx := 1 }

/-- A sample unmapped entry naming that file, for the C2 witness. -/
def body_sample_ent : consensus_cache_entry_t :=
  { refcnt := 1, can_remove := false, fname := "doc-0",
    labels := [("type", "consensus")], in_cache := true, map := false,
    bodylen := 0, body := [] }

/-- Witness for C2: the first `get_body` succeeds with the persisted bytes,
and a second call on the resulting entry — even through an empty directory
binding, so no re-mapping can have happened — returns the same pair and
leaves the entry unchanged. -/
theorem consensus_cache_entry_get_body_stable_witness :
    (consensus_cache_entry_get_body body_sample_dir body_sample_ent).1
      = some ([7, 8], 2)
    ∧ consensus_cache_entry_get_body
        { files := [], max_entries := 8, next_idx := 1 }
        ((consensus_cache_entry_get_body body_sample_dir body_sample_ent).2)
      = (some ([7, 8], 2),
        (consensus_cache_entry_get_body body_sample_dir body_sample_ent).2) :=
  ⟨by decide,
    (consensus_cache_entry_get_body_stable body_sample_dir body_sample_ent).1
      [7, 8] 2 (by decide) { files := [], max_entries := 8, next_idx := 1 }⟩

/-- C6: after the cache releases its refcount unit on an entry an external
caller still holds (refcount at least two), the entry survives with its
back-reference cleared; `get_value` and `get_labels` are unaffected; a
`get_body` call with no mapping yet established fails through any directory
binding, while an entry mapped before the close keeps returning its
already-established body. -/
theorem consensus_cache_free_orphan (ent : consensus_cache_entry_t)
    (h : 2 ≤ ent.refcnt) :
    ∃ e2, consensus_cache_free_entry ent = some e2
      ∧ e2.in_cache = false
      ∧ (∀ k, consensus_cache_entry_get_value e2 k
          = consensus_cache_entry_get_value ent k)
      ∧ consensus_cache_entry_get_labels e2
          = consensus_cache_entry_get_labels ent
      ∧ (ent.map = false →
          ∀ dir, consensus_cache_entry_get_body dir e2 = (none, e2))
      ∧ (ent.map = true →
          ∀ dir, consensus_cache_entry_get_body dir e2
            = (some (ent.body, ent.bodylen), e2)) := by
  refine ⟨{ ent with refcnt := ent.refcnt - 1, in_cache := false },
    ?_, rfl, fun k => rfl, rfl, ?_, ?_⟩
  · have h0 : ¬ ent.refcnt ≤ 0 := by omega
    have hp : (0:Int) < ent.refcnt - 1 := by omega
    simp [consensus_cache_free_entry, consensus_cache_entry_decref, h0, hp]
  · intro hm dir
    simp [consensus_cache_entry_get_body, hm]
  · intro hm dir
    simp [consensus_cache_entry_get_body, hm]

/-- A sample unmapped entry with refcount two, for the C6 witness. -/
def orphan_sample_ent : consensus_cache_entry_t :=
  { refcnt := 2, can_remove := false, fname := "doc-0",
    labels := [("type", "consensus")], in_cache := true, map := false,
    bodylen := 0, body := [] }

/-- Witness for C6 at a concrete externally-held unmapped entry. -/
theorem consensus_cache_free_orphan_witness :
    2 ≤ orphan_sample_ent.refcnt
    ∧ ∃ e2, consensus_cache_free_entry orphan_sample_ent = some e2
      ∧ e2.in_cache = false
      ∧ (∀ k, consensus_cache_entry_get_value e2 k
          = consensus_cache_entry_get_value orphan_sample_ent k)
      ∧ consensus_cache_entry_get_labels e2
          = consensus_cache_entry_get_labels orphan_sample_ent
      ∧ (orphan_sample_ent.map = false →
          ∀ dir, consensus_cache_entry_get_body dir e2 = (none, e2))
      ∧ (orphan_sample_ent.map = true →
          ∀ dir, consensus_cache_entry_get_body dir e2
            = (some (orphan_sample_ent.body, orphan_sample_ent.bodylen), e2)) :=
  ⟨by decide, consensus_cache_free_orphan orphan_sample_ent (by decide)⟩

/-- A copy of a label sequence is value-equal to the original. -/
theorem config_lines_dup_eq (lines : List ConfigLine) :
    config_lines_dup lines = lines := by
  simp [config_lines_dup]

/-- `get_value` is the first-match lookup over the label sequence of the
entry. -/
theorem get_value_eq_lookup (ent : consensus_cache_entry_t) (k : String) :
    consensus_cache_entry_get_value ent k
      = (config_line_find ent.labels k).map Prod.snd := by
  unfold consensus_cache_entry_get_value
  cases config_line_find ent.labels k <;> rfl

/-- The zero-initialized entry both `add` and the rescan build: refcount
one, owned by the cache, unmapped, with the given filename and labels. -/
def fresh_entry (fname : String) (labels : List ConfigLine) :
    consensus_cache_entry_t :=
  { refcnt := 1, can_remove := false, fname := fname, labels := labels,
    in_cache := true, map := false, bodylen := 0, body := [] }

/-- Every readable persisted file shows up in a fresh rescan as an unmapped
entry with refcount one carrying the persisted labels. -/
theorem rescan_mem_of_file (dir : storage_dir_t) (f : StoredFile)
    (hf : f ∈ dir.files)
    (hmap : storage_dir_map_labelled dir f.fname = some (f.labels, f.body)) :
    fresh_entry f.fname f.labels
      ∈ (consensus_cache_rescan { dir := dir, entries := [] }).entries := by
  unfold consensus_cache_rescan
  refine List.mem_filterMap.mpr ⟨f.fname, ?_, ?_⟩
  · exact List.mem_map.mpr ⟨f, hf, rfl⟩
  · rw [hmap]
    rfl

/-- `get_body` on a fresh unmapped entry whose file maps successfully
returns the persisted bytes. -/
theorem get_body_fresh_entry (dir : storage_dir_t) (fname : String)
    (labels : List ConfigLine) (body : List Nat)
    (hmap : storage_dir_map_labelled dir fname = some (labels, body)) :
    (consensus_cache_entry_get_body dir (fresh_entry fname labels)).1
      = some (body, body.length) := by
  simp [consensus_cache_entry_get_body, consensus_cache_entry_map,
    fresh_entry, hmap]

/-- C7: when the persist operation fails, `add` returns no entry and the
cache — directory binding and entry collection alike — is exactly as
before; when it succeeds, `add` returns a fresh unmapped entry with
refcount one, a private copy of the supplied labels and the assigned
filename, appended at the end of the entry collection. -/
theorem consensus_cache_add_spec (cache : consensus_cache_t)
    (labels : List ConfigLine) (data : List Nat) :
    (storage_dir_save_labelled_to_file cache.dir labels data = none →
      consensus_cache_add cache labels data = (none, cache))
    ∧ (∀ dir2 fname,
        storage_dir_save_labelled_to_file cache.dir labels data
          = some (dir2, fname) →
        ∃ ent, consensus_cache_add cache labels data
            = (some ent, { dir := dir2, entries := cache.entries ++ [ent] })
          ∧ ent.refcnt = 1 ∧ ent.labels = labels ∧ ent.fname = fname
          ∧ ent.map = false ∧ ent.in_cache = true
          ∧ ent.can_remove = false) := by
  constructor
  · intro h
    simp [consensus_cache_add, h]
  · intro dir2 fname h
    refine ⟨{ refcnt := 1, can_remove := false, fname := fname,
              labels := config_lines_dup labels, in_cache := true,
              map := false, bodylen := 0, body := [] },
            ?_, rfl, config_lines_dup_eq labels, rfl, rfl, rfl, rfl⟩
    unfold consensus_cache_add
    rw [h]

/-- A sample cache whose directory is already full, for the C7 witness. -/
def add_fail_cache : consensus_cache_t :=
  { dir := { files := [], max_entries := 0, next_idx := 0 }, entries := [] }

/-- A sample cache with room for new documents, for the C7 witness. -/
def add_ok_cache : consensus_cache_t :=
  { dir := { files := [], max_entries := 8, next_idx := 0 }, entries := [] }

/-- Witness for C7: a full directory makes `add` fail with the cache
untouched; a directory with room makes `add` append a fresh entry. -/
theorem consensus_cache_add_spec_witness :
    (storage_dir_save_labelled_to_file add_fail_cache.dir [("k", "v")] [1]
        = none
      ∧ consensus_cache_add add_fail_cache [("k", "v")] [1]
        = (none, add_fail_cache))
    ∧ (storage_dir_save_labelled_to_file add_ok_cache.dir [("k", "v")] [1]
        = some ({ files := [⟨"doc-0", [("k", "v")], [1]⟩],
                  max_entries := 8, next_idx := 1 }, "doc-0")
      ∧ ∃ ent, consensus_cache_add add_ok_cache [("k", "v")] [1]
          = (some ent,
            { dir := { files := [⟨"doc-0", [("k", "v")], [1]⟩],
                       max_entries := 8, next_idx := 1 },
              entries := add_ok_cache.entries ++ [ent] })
        ∧ ent.refcnt = 1 ∧ ent.labels = [("k", "v")] ∧ ent.fname = "doc-0"
        ∧ ent.map = false ∧ ent.in_cache = true
        ∧ ent.can_remove = false) :=
  ⟨⟨by decide, (consensus_cache_add_spec add_fail_cache [("k", "v")] [1]).1
      (by decide)⟩,
   ⟨by decide, (consensus_cache_add_spec add_ok_cache [("k", "v")] [1]).2
      { files := [⟨"doc-0", [("k", "v")], [1]⟩],
        max_entries := 8, next_idx := 1 } "doc-0" (by decide)⟩⟩

/-- C8: persisting a document and then rescanning from scratch (a fresh
open over the same directory, as after a process restart) yields an entry
with the assigned filename whose `get_value` gives the corresponding value
for each label key and whose `get_body` returns exactly the persisted
bytes. The hypotheses say that the persist operation has room to succeed
and that the assigned filename is fresh (the uniqueness the storage
directory service guarantees). -/
theorem consensus_cache_round_trip (cache : consensus_cache_t)
    (labels : List ConfigLine) (data : List Nat)
    (hcap : cache.dir.files.length < cache.dir.max_entries)
    (hfresh : ∀ f ∈ cache.dir.files,
      f.fname ≠ storage_dir_fresh_fname cache.dir) :
    ∃ ent cache2,
      consensus_cache_add cache labels data = (some ent, cache2)
      ∧ ∃ cache3, consensus_cache_open (some cache2.dir) = OpenResult.ok cache3
        ∧ ∃ e ∈ cache3.entries,
            e.fname = ent.fname
            ∧ (∀ k, consensus_cache_entry_get_value e k
                = (config_line_find labels k).map Prod.snd)
            ∧ (consensus_cache_entry_get_body cache3.dir e).1
                = some (data, data.length) := by
  have hsave0 : storage_dir_save_labelled_to_file cache.dir labels data
      = some ({ files := cache.dir.files
                  ++ [⟨storage_dir_fresh_fname cache.dir, labels, data⟩],
                max_entries := cache.dir.max_entries,
                next_idx := cache.dir.next_idx + 1 },
              storage_dir_fresh_fname cache.dir) := by
    unfold storage_dir_save_labelled_to_file
    rw [if_neg (by omega)]
  obtain ⟨dir2, fname, hsave, hfiles, hfname⟩ : ∃ dir2 fname,
      storage_dir_save_labelled_to_file cache.dir labels data
        = some (dir2, fname)
      ∧ dir2.files = cache.dir.files ++ [⟨fname, labels, data⟩]
      ∧ fname = storage_dir_fresh_fname cache.dir :=
    ⟨_, _, hsave0, rfl, rfl⟩
  have hmap : storage_dir_map_labelled dir2 fname = some (labels, data) := by
    have h1 : cache.dir.files.find? (fun f => f.fname == fname) = none := by
      refine List.find?_eq_none.mpr (fun f hf => ?_)
      rw [hfname]
      simpa using hfresh f hf
    unfold storage_dir_map_labelled
    rw [hfiles, List.find?_append, h1]
    simp [List.find?_cons]
  refine ⟨fresh_entry fname (config_lines_dup labels),
    { dir := dir2,
      entries := cache.entries ++ [fresh_entry fname (config_lines_dup labels)] },
    ?_, consensus_cache_rescan { dir := dir2, entries := [] }, rfl,
    fresh_entry fname labels, ?_, rfl, ?_, ?_⟩
  · unfold consensus_cache_add
    rw [hsave]
    rfl
  · have hmem : (⟨fname, labels, data⟩ : StoredFile) ∈ dir2.files := by
      rw [hfiles]
      exact List.mem_append_right _ (List.mem_singleton.mpr rfl)
    exact rescan_mem_of_file dir2 ⟨fname, labels, data⟩ hmem hmap
  · intro k
    exact get_value_eq_lookup _ k
  · exact get_body_fresh_entry dir2 fname labels data hmap

/-- A sample empty cache for the C8 witness. -/
def round_trip_cache : consensus_cache_t :=
  { dir := { files := [], max_entries := 8, next_idx := 0 }, entries := [] }

/-- Witness for C8 at a concrete cache, labels and body. -/
theorem consensus_cache_round_trip_witness :
    round_trip_cache.dir.files.length < round_trip_cache.dir.max_entries
    ∧ (∀ f ∈ round_trip_cache.dir.files,
        f.fname ≠ storage_dir_fresh_fname round_trip_cache.dir)
    ∧ ∃ ent cache2,
      consensus_cache_add round_trip_cache
          [("type", "consensus"), ("flavor", "ns")] [1, 2, 3]
        = (some ent, cache2)
      ∧ ∃ cache3, consensus_cache_open (some cache2.dir) = OpenResult.ok cache3
        ∧ ∃ e ∈ cache3.entries,
            e.fname = ent.fname
            ∧ (∀ k, consensus_cache_entry_get_value e k
                = (config_line_find
                    [("type", "consensus"), ("flavor", "ns")] k).map Prod.snd)
            ∧ (consensus_cache_entry_get_body cache3.dir e).1
                = some ([1, 2, 3], 3) :=
  ⟨by decide, by decide,
    consensus_cache_round_trip round_trip_cache
      [("type", "consensus"), ("flavor", "ns")] [1, 2, 3]
      (by decide) (by decide)⟩

/-- C9: when the directory binding fails, `open` does not propagate the
failure to its caller — it stores the null handle and the rescan
dereferences it (a crash, not a returned failure); when the binding
succeeds, `open` returns the cache populated by a full rescan. The claimed
propagation contract does not hold on this code. -/
theorem consensus_cache_open_null_dir :
    consensus_cache_open none = OpenResult.nullDirCrash
    ∧ ∀ dir, consensus_cache_open (some dir)
        = OpenResult.ok (consensus_cache_rescan { dir := dir, entries := [] }) :=
  ⟨rfl, fun _ => rfl⟩

end Conscache
